import Mathlib

set_option maxRecDepth 8000

/-
Verification development for the CatLocator go-mqtt-server: a shallow
embedding, in Lean 4, of the hand-written MQTT 3.1.1 broker
(mqttbroker package) and of the ingestion / location-estimation pipeline
(internal/app/app.go), together with theorems settling the specification
claims about them.

Modelling conventions:
- Go bytes are `Nat` values; byte slices are `List Nat`.  Conversions that
  Go performs by truncation to `byte` are written with `% 256` (`byteOf`).
- Go strings at the application layer are `List Char` (Go string equality
  is plain element-wise equality, as here).
- Streaming reads (`bufio.Reader`, `bytesReader`) become functions from a
  byte list to `Option (value × remaining bytes)`.
- Float64 arithmetic in the estimator is modelled over `ℝ`.
- Effects (socket writes, handler invocations) are reified as event lists;
  the persistence layer becomes a record of lists mutated by pure updates.
-/

namespace CatLocator

/-- Truncation of an integer to a Go `byte` (the `byte(x)` conversions in
`buildPublishPacket` and `buildSubAck`). -/
def byteOf (n : Nat) : Nat := n % 256

/-- The encoder of `encodeRemainingLength` (mqttbroker): base-128 groups,
low group first, continuation bit `0x80` set while a nonzero quotient
remains.  The Go guard `if length < 0 { length = 0 }` is vacuous over `Nat`. -/
def encodeRemainingLength (n : Nat) : List Nat :=
  let digit := n % 128
  let rest := n / 128
  if h : rest = 0 then [digit]
  else (digit ||| 128) :: encodeRemainingLength rest
termination_by n
decreasing_by
  exact Nat.div_lt_self (by omega) (by omega)

/-- One pass of the `readVarInt` loop body (mqttbroker): at most `fuel`
digits are consumed; `value += (digit & 127) * multiplier`, stop when the
continuation bit `digit & 128` is clear, `multiplier *= 128` otherwise.
The source iterates exactly 4 times before declaring the length malformed. -/
def readVarIntAux : Nat → Nat → Nat → List Nat → Option (Nat × List Nat)
  | 0, _, _, _ => none
  | _ + 1, _, _, [] => none
  | fuel + 1, multiplier, value, digit :: rest =>
    let value := value + (digit &&& 127) * multiplier
    if digit &&& 128 = 0 then some (value, rest)
    else readVarIntAux fuel (multiplier * 128) value rest

/-- The `readVarInt` decoder of the remaining-length field (mqttbroker),
reading from a byte stream modelled as a list; `none` is any read error or
the malformed-length error after 4 continuation bytes. -/
def readVarInt (bs : List Nat) : Option (Nat × List Nat) :=
  readVarIntAux 4 1 0 bs

/-- The `bytesReader.readUint16` of mqttbroker: big-endian 16-bit read,
`uint16(b[0])<<8 | uint16(b[1])`. -/
def readUint16 : List Nat → Option (Nat × List Nat)
  | b0 :: b1 :: rest => some ((b0 <<< 8) ||| b1, rest)
  | _ => none

/-- Continuation of `bytesReader.readString` after the length is read:
the reader fails (`io.ErrUnexpectedEOF`) when fewer than `l` bytes remain. -/
def readStringAfterLen : Option (Nat × List Nat) → Option (List Nat × List Nat)
  | none => none
  | some (l, rest) =>
    if l ≤ rest.length then some (rest.take l, rest.drop l) else none

/-- The `bytesReader.readString` of mqttbroker: a 2-byte big-endian length
then that many content bytes; `none` is `io.EOF` / `io.ErrUnexpectedEOF`. -/
def readString (bs : List Nat) : Option (List Nat × List Nat) :=
  readStringAfterLen (readUint16 bs)

/-- The `bytesReader.readBytes` of mqttbroker: takes `n` bytes, clamped to
what remains (`List.take` already clamps exactly this way). -/
def readBytes (bs : List Nat) (n : Nat) : List Nat := bs.take n

/-- The `buildPublishPacket` encoder of mqttbroker: fixed header `0x30`,
remaining-length field, 2-byte big-endian topic length, topic bytes,
payload bytes.  `none` is the "topic too long" error. -/
def buildPublishPacket (topic payload : List Nat) : Option (List Nat) :=
  if topic.length > 65535 then none
  else
    let remaining := 2 + topic.length + payload.length
    some (0x30 :: (encodeRemainingLength remaining ++
      byteOf (topic.length >>> 8) :: byteOf (topic.length &&& 0xFF) :: (topic ++ payload)))

/-- Continuation of `parsePublish` after the topic read: the remainder of
the body is the payload (`nil` for an exhausted reader, which coincides
with `[]`). -/
def parsePublishAfterTopic : Option (List Nat × List Nat) → Option (List Nat × List Nat)
  | none => none
  | some (topic, rest) =>
    if rest.length = 0 then some (topic, [])
    else some (topic, readBytes rest rest.length)

/-- The `parsePublish` decoder of mqttbroker applied to a fixed header byte
and the packet body: rejects any QoS bits other than 0, then reads the
length-prefixed topic and takes the remainder as payload. -/
def parsePublish (header : Nat) (body : List Nat) : Option (List Nat × List Nat) :=
  let qos := (header >>> 1) &&& 0x03
  if qos ≠ 0 then none
  else parsePublishAfterTopic (readString body)

/-- Body handling of `Broker.handleConn` (mqttbroker) once the remaining
length is known: an exact read of `remaining` body bytes (`io.ReadFull`
fails when fewer are available), dispatch on the high nibble of the header
(3 = PUBLISH), then `parsePublish`. -/
def decodePublishBody (header remaining : Nat) (rest : List Nat) :
    Option (List Nat × List Nat) :=
  if rest.length < remaining then none
  else if header >>> 4 = 3 then parsePublish header (rest.take remaining)
  else none

/-- Propagation of a failed or successful remaining-length read
(`Broker.handleConn` returns on a `readVarInt` error). -/
def decodeAfterHeader (header : Nat) : Option (Nat × List Nat) → Option (List Nat × List Nat)
  | none => none
  | some (remaining, rest) => decodePublishBody header remaining rest

/-- The broker-side decoding pipeline for a single PUBLISH packet, following
`Broker.handleConn` (mqttbroker): one header byte, `readVarInt` for the
remaining length, then the body handling above. -/
def decodePublishPacket : List Nat → Option (List Nat × List Nat)
  | [] => none
  | header :: rest => decodeAfterHeader header (readVarInt rest)

/-! ### Arithmetic bridge lemmas for the byte-level operations -/

theorem land_127_eq_mod (x : Nat) : x &&& 127 = x % 128 := by
  have h := Nat.and_pow_two_sub_one_eq_mod x 7
  norm_num at h
  exact h

theorem land_128_eq_zero (e : Nat) (h : e < 128) : e &&& 128 = 0 := by
  apply Nat.eq_of_testBit_eq
  intro i
  rw [Nat.testBit_and, Nat.zero_testBit]
  by_cases hi : i = 7
  · subst hi
    rw [Nat.testBit_lt_two_pow (show e < 2 ^ 7 by omega)]
    simp
  · have h128 : (128 : Nat) = 2 ^ 7 := by norm_num
    rw [h128, Nat.testBit_two_pow_of_ne (fun hh => hi hh.symm)]
    simp

theorem lor_128_eq_add (d : Nat) (h : d < 128) : d ||| 128 = d + 128 := by
  have h2 := Nat.mul_add_lt_is_or (i := 7) (b := d) (by simpa using h) 1
  simp at h2
  rw [Nat.lor_comm]
  omega

theorem shiftLeft_8_lor (hi lo : Nat) (h : lo < 256) :
    (hi <<< 8) ||| lo = hi * 256 + lo := by
  rw [Nat.shiftLeft_eq]
  have h1 : (2 : Nat) ^ 8 = 256 := by norm_num
  have h2 := Nat.mul_add_lt_is_or (i := 8) (b := lo) (by simpa [h1] using h) hi
  rw [h1, Nat.mul_comm 256 hi] at h2
  exact h2.symm

theorem lor_128_land_128 (d : Nat) (h : d < 128) : (d ||| 128) &&& 128 = 128 := by
  have hd : 128 &&& d = 0 := by rw [Nat.and_comm]; exact land_128_eq_zero d h
  rw [Nat.and_comm, Nat.and_or_distrib_left, hd, Nat.and_self]
  simp

/-- Decoding an encoded remaining length recovers the value and leaves the
trailing bytes untouched, for any accumulator state, provided the value
fits in the remaining fuel. -/
theorem readVarIntAux_encode (fuel : Nat) :
    ∀ n multiplier value tail, 0 < fuel → n < 128 ^ fuel →
      readVarIntAux fuel multiplier value (encodeRemainingLength n ++ tail) =
        some (value + n * multiplier, tail) := by
  induction fuel with
  | zero => intro n _ _ _ hf _; omega
  | succ fuel ih =>
    intro n multiplier value tail _ hn
    rw [encodeRemainingLength]
    by_cases h : n / 128 = 0
    · have hn128 : n < 128 := by omega
      rw [dif_pos h, List.cons_append]
      have e1 : (n % 128) &&& 127 = n := by rw [land_127_eq_mod]; omega
      have e2 : (n % 128) &&& 128 = 0 := land_128_eq_zero _ (by omega)
      simp [readVarIntAux, e1, e2]
    · have hge : 128 ≤ n := by omega
      have hlt : n % 128 < 128 := Nat.mod_lt _ (by omega)
      have e1 : ((n % 128) ||| 128) &&& 127 = n % 128 := by
        rw [lor_128_eq_add _ hlt, land_127_eq_mod]; omega
      have e2 : ((n % 128) ||| 128) &&& 128 = 128 := lor_128_land_128 _ hlt
      rw [dif_neg h, List.cons_append]
      have hfuel : 0 < fuel := by
        rcases Nat.eq_zero_or_pos fuel with hz | hp
        · subst hz; simp at hn; omega
        · exact hp
      have hdiv : n / 128 < 128 ^ fuel := by
        rw [Nat.div_lt_iff_lt_mul (by omega)]
        calc n < 128 ^ (fuel + 1) := hn
          _ = 128 ^ fuel * 128 := by ring
      simp only [readVarIntAux, e1, e2]
      rw [if_neg (by omega)]
      rw [ih (n / 128) (multiplier * 128) (value + (n % 128) * multiplier) tail hfuel hdiv]
      have hsplit := Nat.div_add_mod n 128
      congr 2
      conv_rhs => rw [← hsplit]
      ring

/-- Decoding an encoded remaining length at the top level (fuel 4). -/
theorem readVarInt_encode (n : Nat) (tail : List Nat) (hn : n ≤ 268435455) :
    readVarInt (encodeRemainingLength n ++ tail) = some (n, tail) := by
  have h := readVarIntAux_encode 4 n 1 0 tail (by omega) (by norm_num; omega)
  simpa [readVarInt] using h

theorem land_255_eq_mod (x : Nat) : x &&& 255 = x % 256 := by
  have h := Nat.and_pow_two_sub_one_eq_mod x 8
  norm_num at h
  exact h

theorem shiftRight_8_eq_div (x : Nat) : x >>> 8 = x / 256 := by
  rw [Nat.shiftRight_eq_div_pow]

/-- C1.  For every topic of at most 65535 bytes and every payload, as long
as the remaining length fits the 1-to-4-byte variable-length field
(that is, `2 + |topic| + |payload| ≤ 268435455`), the encoder
`buildPublishPacket` succeeds and the broker-side decode of the produced
packet (header byte, `readVarInt`, exact body read, `parsePublish`)
returns exactly the original topic bytes and payload bytes. -/
theorem publish_packet_round_trip (topic payload : List Nat)
    (htopic : topic.length ≤ 65535)
    (hrem : 2 + topic.length + payload.length ≤ 268435455) :
    ∃ packet, buildPublishPacket topic payload = some packet ∧
      decodePublishPacket packet = some (topic, payload) := by
  have hbuild : buildPublishPacket topic payload =
      some (0x30 :: (encodeRemainingLength (2 + topic.length + payload.length) ++
        byteOf (topic.length >>> 8) :: byteOf (topic.length &&& 0xFF) ::
          (topic ++ payload))) := by
    rw [buildPublishPacket, if_neg (by omega)]
  refine ⟨_, hbuild, ?_⟩
  have hvar := readVarInt_encode (2 + topic.length + payload.length)
    (byteOf (topic.length >>> 8) :: byteOf (topic.length &&& 0xFF) :: (topic ++ payload))
    (by omega)
  rw [show decodePublishPacket (0x30 :: (encodeRemainingLength
        (2 + topic.length + payload.length) ++
        byteOf (topic.length >>> 8) :: byteOf (topic.length &&& 0xFF) :: (topic ++ payload))) =
      decodeAfterHeader 0x30 (readVarInt (encodeRemainingLength
        (2 + topic.length + payload.length) ++
        byteOf (topic.length >>> 8) :: byteOf (topic.length &&& 0xFF) :: (topic ++ payload)))
    from rfl]
  rw [hvar]
  rw [show decodeAfterHeader 0x30 (some (2 + topic.length + payload.length,
      byteOf (topic.length >>> 8) :: byteOf (topic.length &&& 0xFF) :: (topic ++ payload))) =
    decodePublishBody 0x30 (2 + topic.length + payload.length)
      (byteOf (topic.length >>> 8) :: byteOf (topic.length &&& 0xFF) :: (topic ++ payload))
    from rfl]
  rw [decodePublishBody]
  have hlen : (byteOf (topic.length >>> 8) :: byteOf (topic.length &&& 0xFF) ::
      (topic ++ payload)).length = 2 + topic.length + payload.length := by
    simp only [List.length_cons, List.length_append]
    omega
  rw [if_neg (by omega)]
  rw [if_pos (show (0x30 : Nat) >>> 4 = 3 by decide)]
  have htake : (byteOf (topic.length >>> 8) :: byteOf (topic.length &&& 0xFF) ::
      (topic ++ payload)).take (2 + topic.length + payload.length) =
      byteOf (topic.length >>> 8) :: byteOf (topic.length &&& 0xFF) :: (topic ++ payload) := by
    rw [← hlen, List.take_length]
  rw [htake]
  simp only [parsePublish]
  rw [if_neg (by decide)]
  have hb0 : byteOf (topic.length >>> 8) = topic.length / 256 := by
    rw [byteOf, shiftRight_8_eq_div, Nat.mod_eq_of_lt (by omega)]
  have hb1 : byteOf (topic.length &&& 0xFF) = topic.length % 256 := by
    rw [byteOf, land_255_eq_mod, Nat.mod_mod_of_dvd _ (by norm_num)]
  have hread : readString (byteOf (topic.length >>> 8) :: byteOf (topic.length &&& 0xFF) ::
      (topic ++ payload)) = some (topic, payload) := by
    rw [readString]
    rw [show readUint16 (byteOf (topic.length >>> 8) :: byteOf (topic.length &&& 0xFF) ::
        (topic ++ payload)) =
      some ((byteOf (topic.length >>> 8) <<< 8) ||| byteOf (topic.length &&& 0xFF),
        topic ++ payload) from rfl]
    rw [hb0, hb1, shiftLeft_8_lor _ _ (Nat.mod_lt _ (by omega))]
    have hl : topic.length / 256 * 256 + topic.length % 256 = topic.length := by omega
    rw [hl]
    rw [show readStringAfterLen (some (topic.length, topic ++ payload)) =
      (if topic.length ≤ (topic ++ payload).length then
        some ((topic ++ payload).take topic.length, (topic ++ payload).drop topic.length)
      else none) from rfl]
    rw [if_pos (by simp only [List.length_append]; omega)]
    rw [List.take_left, List.drop_left]
  rw [hread]
  rw [show parsePublishAfterTopic (some (topic, payload)) =
    (if payload.length = 0 then some (topic, ([] : List Nat))
     else some (topic, readBytes payload payload.length)) from rfl]
  by_cases hp : payload.length = 0
  · rw [if_pos hp]
    have hnil : payload = [] := List.eq_nil_of_length_eq_zero hp
    rw [hnil]
  · rw [if_neg hp, readBytes, List.take_length]

/-- Witness for C1 at a concrete topic and payload. -/
theorem publish_packet_round_trip_witness :
    ([116, 47, 97] : List Nat).length ≤ 65535 ∧
      2 + ([116, 47, 97] : List Nat).length + ([1, 2] : List Nat).length ≤ 268435455 ∧
      ∃ packet, buildPublishPacket [116, 47, 97] [1, 2] = some packet ∧
        decodePublishPacket packet = some ([116, 47, 97], [1, 2]) :=
  ⟨by decide, by decide,
    publish_packet_round_trip [116, 47, 97] [1, 2] (by decide) (by decide)⟩

/-! ### CONNECT handling (`Broker.handleConnect`, mqttbroker) -/

/-- The fixed CONNACK success bytes written by `handleConnect`. -/
def connackBytes : List Nat := [0x20, 0x02, 0x00, 0x00]

/-- The UTF-8 bytes of the protocol name "MQTT" that `handleConnect`
compares against. -/
def mqttProtoName : List Nat := [77, 81, 84, 84]

/-- Final step of `handleConnect`: read the client identifier, replace an
empty one by the generated `anon-<nanotime>` identifier (modelled by the
`genID` parameter since the source value is wall-clock dependent), store it
on the session and write the CONNACK.  A successful result carries the
assigned client ID and the reply packet; the session is then `Connected`. -/
def handleConnectClientID (genID : List Nat) :
    Option (List Nat × List Nat) → Except String (List Nat × List Nat)
  | none => .error "read client id"
  | some (clientID, _) =>
    .ok (if clientID = [] then genID else clientID, connackBytes)

/-- Keep-alive step of `handleConnect`: a 2-byte field whose value is
ignored. -/
def handleConnectKeepAlive (genID : List Nat) :
    Option (Nat × List Nat) → Except String (List Nat × List Nat)
  | none => .error "read keepalive"
  | some (_, rest) => handleConnectClientID genID (readString rest)

/-- Connect-flags step of `handleConnect`: the source rejects the packet if
any of the bits `1<<2` (will flag), `1<<5` (will retain), `1<<6` (password),
`1<<7` (username), `1<<3` or `1<<4` (will QoS) is set. -/
def handleConnectFlags (genID : List Nat) :
    List Nat → Except String (List Nat × List Nat)
  | [] => .error "read connect flags"
  | flags :: rest =>
    if flags &&& (1 <<< 2) ≠ 0 ∨ flags &&& (1 <<< 5) ≠ 0 ∨ flags &&& (1 <<< 6) ≠ 0 ∨
        flags &&& (1 <<< 7) ≠ 0 ∨ flags &&& (1 <<< 3) ≠ 0 ∨ flags &&& (1 <<< 4) ≠ 0 then
      .error "unsupported connect flags"
    else handleConnectKeepAlive genID (readUint16 rest)

/-- Protocol-level step of `handleConnect`: only level 4 (MQTT 3.1.1) is
accepted. -/
def handleConnectLevel (genID : List Nat) :
    List Nat → Except String (List Nat × List Nat)
  | [] => .error "read protocol level"
  | level :: rest =>
    if level ≠ 4 then .error "unsupported protocol level"
    else handleConnectFlags genID rest

/-- Protocol-name step of `handleConnect`: only the name "MQTT" is
accepted. -/
def handleConnectAfterName (genID : List Nat) :
    Option (List Nat × List Nat) → Except String (List Nat × List Nat)
  | none => .error "read protocol name"
  | some (protoName, rest) =>
    if protoName ≠ mqttProtoName then .error "unsupported protocol"
    else handleConnectLevel genID rest

/-- The `Broker.handleConnect` of mqttbroker over a CONNECT packet body.
`Except.ok (clientID, reply)` models the session entering the `Connected`
state with the given client ID after the reply bytes are written; any
`Except.error` makes `handleConn` return, which closes the connection
without writing anything. -/
def handleConnect (genID payload : List Nat) : Except String (List Nat × List Nat) :=
  handleConnectAfterName genID (readString payload)

/-- A 2-byte big-endian length-prefixed field, as produced by MQTT
encoders. -/
def str16 (s : List Nat) : List Nat :=
  byteOf (s.length >>> 8) :: byteOf (s.length &&& 0xFF) :: s

/-- A CONNECT packet body assembled from its fields (used to state claims
about concrete packets). -/
def connectPayload (pname : List Nat) (level flags ka1 ka2 : Nat)
    (clientID extra : List Nat) : List Nat :=
  str16 pname ++ level :: flags :: ka1 :: ka2 :: (str16 clientID ++ extra)

/-- The acceptance condition claimed by the specification for CONNECT: the
packet parses (protocol name "MQTT", a protocol-level byte equal to 4, a
flags byte, a 2-byte keep-alive, a client-identifier string), and none of
the will-flag (`1<<2`), will-QoS (`1<<3`, `1<<4`), or will-retain (`1<<5`)
bits is set.  Stated from the specification's words for comparison with the
code; the username (`1<<7`) and password (`1<<6`) bits are deliberately
unconstrained here because the claim does not mention them. -/
def claimConnectOK (payload : List Nat) : Prop :=
  ∃ r1 r2 flags r3 ka r4 cid r5,
    readString payload = some (mqttProtoName, r1) ∧
    r1 = 4 :: r2 ∧
    r2 = flags :: r3 ∧
    flags &&& 4 = 0 ∧ flags &&& 8 = 0 ∧ flags &&& 16 = 0 ∧ flags &&& 32 = 0 ∧
    readUint16 r3 = some (ka, r4) ∧
    readString r4 = some (cid, r5)

/-- The acceptance condition actually implemented by `handleConnect`: as
`claimConnectOK`, but the password (`1<<6`) and username (`1<<7`) bits must
also be clear. -/
def amendedConnectOK (payload : List Nat) : Prop :=
  ∃ r1 r2 flags r3 ka r4 cid r5,
    readString payload = some (mqttProtoName, r1) ∧
    r1 = 4 :: r2 ∧
    r2 = flags :: r3 ∧
    flags &&& 4 = 0 ∧ flags &&& 8 = 0 ∧ flags &&& 16 = 0 ∧ flags &&& 32 = 0 ∧
    flags &&& 64 = 0 ∧ flags &&& 128 = 0 ∧
    readUint16 r3 = some (ka, r4) ∧
    readString r4 = some (cid, r5)

theorem shl_bits : (1 : Nat) <<< 2 = 4 ∧ (1 : Nat) <<< 5 = 32 ∧ (1 : Nat) <<< 6 = 64 ∧
    (1 : Nat) <<< 7 = 128 ∧ (1 : Nat) <<< 3 = 8 ∧ (1 : Nat) <<< 4 = 16 := by
  refine ⟨rfl, rfl, rfl, rfl, rfl, rfl⟩

/-- A CONNECT whose fields parse with name "MQTT", level 4, and all six
checked flag bits clear is accepted: the session's client ID becomes the
parsed one (or the generated one if empty) and the CONNACK bytes are
written. -/
theorem handleConnect_ok_of_parse (genID payload : List Nat)
    (r1 r2 : List Nat) (flags : Nat) (r3 : List Nat) (ka : Nat) (r4 cid r5 : List Nat)
    (h1 : readString payload = some (mqttProtoName, r1))
    (h2 : r1 = 4 :: r2) (h3 : r2 = flags :: r3)
    (f4 : flags &&& 4 = 0) (f8 : flags &&& 8 = 0) (f16 : flags &&& 16 = 0)
    (f32 : flags &&& 32 = 0) (f64 : flags &&& 64 = 0) (f128 : flags &&& 128 = 0)
    (h4 : readUint16 r3 = some (ka, r4))
    (h5 : readString r4 = some (cid, r5)) :
    handleConnect genID payload =
      .ok (if cid = [] then genID else cid, connackBytes) := by
  rw [handleConnect, h1]
  rw [show handleConnectAfterName genID (some (mqttProtoName, r1)) =
    (if mqttProtoName ≠ mqttProtoName then .error "unsupported protocol"
     else handleConnectLevel genID r1) from rfl]
  rw [if_neg (by simp)]
  rw [h2]
  rw [show handleConnectLevel genID (4 :: r2) =
    (if (4 : Nat) ≠ 4 then .error "unsupported protocol level"
     else handleConnectFlags genID r2) from rfl]
  rw [if_neg (by simp)]
  rw [h3]
  rw [show handleConnectFlags genID (flags :: r3) =
    (if flags &&& (1 <<< 2) ≠ 0 ∨ flags &&& (1 <<< 5) ≠ 0 ∨ flags &&& (1 <<< 6) ≠ 0 ∨
        flags &&& (1 <<< 7) ≠ 0 ∨ flags &&& (1 <<< 3) ≠ 0 ∨ flags &&& (1 <<< 4) ≠ 0 then
      .error "unsupported connect flags"
     else handleConnectKeepAlive genID (readUint16 r3)) from rfl]
  rw [if_neg (by
    simp only [shl_bits.1, shl_bits.2.1, shl_bits.2.2.1, shl_bits.2.2.2.1,
      shl_bits.2.2.2.2.1, shl_bits.2.2.2.2.2, f4, f8, f16, f32, f64, f128]
    simp)]
  rw [h4]
  rw [show handleConnectKeepAlive genID (some (ka, r4)) =
    handleConnectClientID genID (readString r4) from rfl]
  rw [h5]
  rfl

/-- C2 (amended).  A CONNECT is answered with the fixed CONNACK bytes and
moves the session to `Connected` exactly when it parses with protocol name
"MQTT", protocol level 4, and all of the will-flag, will-QoS, will-retain,
password and username bits clear; an empty client ID is replaced by the
generated one.  Every rejected CONNECT yields an error, which closes the
connection without any reply. -/
theorem handleConnect_connack_iff (genID payload : List Nat) :
    ((handleConnect genID payload).isOk = true ↔ amendedConnectOK payload) ∧
    (∀ cid reply, handleConnect genID payload = .ok (cid, reply) → reply = connackBytes) := by
  constructor
  · constructor
    · intro hok
      rw [handleConnect] at hok
      cases h1 : readString payload with
      | none => rw [h1] at hok; simp [handleConnectAfterName, Except.toBool] at hok
      | some pr =>
        obtain ⟨pn, r1⟩ := pr
        rw [h1] at hok
        by_cases hpn : pn = mqttProtoName
        · rw [show handleConnectAfterName genID (some (pn, r1)) =
            (if pn ≠ mqttProtoName then .error "unsupported protocol"
             else handleConnectLevel genID r1) from rfl, if_neg (by simp [hpn])] at hok
          rw [hpn] at h1
          cases r1 with
          | nil => simp [handleConnectLevel, Except.toBool] at hok
          | cons level r2 =>
            by_cases hl : level = 4
            · subst hl
              rw [show handleConnectLevel genID (4 :: r2) =
                (if (4 : Nat) ≠ 4 then .error "unsupported protocol level"
                 else handleConnectFlags genID r2) from rfl, if_neg (by simp)] at hok
              cases r2 with
              | nil => simp [handleConnectFlags, Except.toBool] at hok
              | cons flags r3 =>
                by_cases hf : flags &&& (1 <<< 2) ≠ 0 ∨ flags &&& (1 <<< 5) ≠ 0 ∨
                    flags &&& (1 <<< 6) ≠ 0 ∨ flags &&& (1 <<< 7) ≠ 0 ∨
                    flags &&& (1 <<< 3) ≠ 0 ∨ flags &&& (1 <<< 4) ≠ 0
                · rw [show handleConnectFlags genID (flags :: r3) =
                    (if flags &&& (1 <<< 2) ≠ 0 ∨ flags &&& (1 <<< 5) ≠ 0 ∨
                        flags &&& (1 <<< 6) ≠ 0 ∨ flags &&& (1 <<< 7) ≠ 0 ∨
                        flags &&& (1 <<< 3) ≠ 0 ∨ flags &&& (1 <<< 4) ≠ 0 then
                      .error "unsupported connect flags"
                     else handleConnectKeepAlive genID (readUint16 r3)) from rfl,
                    if_pos hf] at hok
                  simp [Except.toBool] at hok
                · rw [show handleConnectFlags genID (flags :: r3) =
                    (if flags &&& (1 <<< 2) ≠ 0 ∨ flags &&& (1 <<< 5) ≠ 0 ∨
                        flags &&& (1 <<< 6) ≠ 0 ∨ flags &&& (1 <<< 7) ≠ 0 ∨
                        flags &&& (1 <<< 3) ≠ 0 ∨ flags &&& (1 <<< 4) ≠ 0 then
                      .error "unsupported connect flags"
                     else handleConnectKeepAlive genID (readUint16 r3)) from rfl,
                    if_neg hf] at hok
                  push_neg at hf
                  obtain ⟨g4, g32, g64, g128, g8, g16⟩ := hf
                  simp only [shl_bits.1, shl_bits.2.1, shl_bits.2.2.1, shl_bits.2.2.2.1,
                    shl_bits.2.2.2.2.1, shl_bits.2.2.2.2.2, ne_eq, not_not] at g4 g32 g64 g128 g8 g16
                  cases h4 : readUint16 r3 with
                  | none => rw [h4] at hok; simp [handleConnectKeepAlive, Except.toBool] at hok
                  | some kr =>
                    obtain ⟨ka, r4⟩ := kr
                    rw [h4] at hok
                    rw [show handleConnectKeepAlive genID (some (ka, r4)) =
                      handleConnectClientID genID (readString r4) from rfl] at hok
                    cases h5 : readString r4 with
                    | none => rw [h5] at hok; simp [handleConnectClientID, Except.toBool] at hok
                    | some cr =>
                      obtain ⟨cid, r5⟩ := cr
                      exact ⟨4 :: flags :: r3, flags :: r3, flags, r3, ka, r4, cid, r5,
                        h1, rfl, rfl, g4, g8, g16, g32, g64, g128, h4, h5⟩
            · rw [show handleConnectLevel genID (level :: r2) =
                (if level ≠ 4 then .error "unsupported protocol level"
                 else handleConnectFlags genID r2) from rfl, if_pos hl] at hok
              simp [Except.toBool] at hok
        · rw [show handleConnectAfterName genID (some (pn, r1)) =
            (if pn ≠ mqttProtoName then .error "unsupported protocol"
             else handleConnectLevel genID r1) from rfl, if_pos hpn] at hok
          simp [Except.toBool] at hok
    · intro ham
      obtain ⟨r1, r2, flags, r3, ka, r4, cid, r5, h1, h2, h3,
        f4, f8, f16, f32, f64, f128, h4, h5⟩ := ham
      rw [handleConnect_ok_of_parse genID payload r1 r2 flags r3 ka r4 cid r5
        h1 h2 h3 f4 f8 f16 f32 f64 f128 h4 h5]
      rfl
  · intro cid reply hok
    rw [handleConnect] at hok
    cases h1 : readString payload with
    | none => rw [h1] at hok; exact absurd hok (by simp [handleConnectAfterName])
    | some pr =>
      obtain ⟨pn, r1⟩ := pr
      rw [h1] at hok
      by_cases hpn : pn = mqttProtoName
      · rw [show handleConnectAfterName genID (some (pn, r1)) =
          (if pn ≠ mqttProtoName then .error "unsupported protocol"
           else handleConnectLevel genID r1) from rfl, if_neg (by simp [hpn])] at hok
        cases r1 with
        | nil => exact absurd hok (by simp [handleConnectLevel])
        | cons level r2 =>
          by_cases hl : level = 4
          · subst hl
            rw [show handleConnectLevel genID (4 :: r2) =
              (if (4 : Nat) ≠ 4 then .error "unsupported protocol level"
               else handleConnectFlags genID r2) from rfl, if_neg (by simp)] at hok
            cases r2 with
            | nil => exact absurd hok (by simp [handleConnectFlags])
            | cons flags r3 =>
              by_cases hf : flags &&& (1 <<< 2) ≠ 0 ∨ flags &&& (1 <<< 5) ≠ 0 ∨
                  flags &&& (1 <<< 6) ≠ 0 ∨ flags &&& (1 <<< 7) ≠ 0 ∨
                  flags &&& (1 <<< 3) ≠ 0 ∨ flags &&& (1 <<< 4) ≠ 0
              · rw [show handleConnectFlags genID (flags :: r3) =
                  (if flags &&& (1 <<< 2) ≠ 0 ∨ flags &&& (1 <<< 5) ≠ 0 ∨
                      flags &&& (1 <<< 6) ≠ 0 ∨ flags &&& (1 <<< 7) ≠ 0 ∨
                      flags &&& (1 <<< 3) ≠ 0 ∨ flags &&& (1 <<< 4) ≠ 0 then
                    .error "unsupported connect flags"
                   else handleConnectKeepAlive genID (readUint16 r3)) from rfl,
                  if_pos hf] at hok
                exact absurd hok (by simp)
              · rw [show handleConnectFlags genID (flags :: r3) =
                  (if flags &&& (1 <<< 2) ≠ 0 ∨ flags &&& (1 <<< 5) ≠ 0 ∨
                      flags &&& (1 <<< 6) ≠ 0 ∨ flags &&& (1 <<< 7) ≠ 0 ∨
                      flags &&& (1 <<< 3) ≠ 0 ∨ flags &&& (1 <<< 4) ≠ 0 then
                    .error "unsupported connect flags"
                   else handleConnectKeepAlive genID (readUint16 r3)) from rfl,
                  if_neg hf] at hok
                cases h4 : readUint16 r3 with
                | none => rw [h4] at hok; exact absurd hok (by simp [handleConnectKeepAlive])
                | some kr =>
                  obtain ⟨ka, r4⟩ := kr
                  rw [h4] at hok
                  rw [show handleConnectKeepAlive genID (some (ka, r4)) =
                    handleConnectClientID genID (readString r4) from rfl] at hok
                  cases h5 : readString r4 with
                  | none => rw [h5] at hok; exact absurd hok (by simp [handleConnectClientID])
                  | some cr =>
                    obtain ⟨cid0, r5⟩ := cr
                    rw [h5] at hok
                    rw [show handleConnectClientID genID (some (cid0, r5)) =
                      .ok (if cid0 = [] then genID else cid0, connackBytes) from rfl] at hok
                    cases hok
                    rfl
          · rw [show handleConnectLevel genID (level :: r2) =
              (if level ≠ 4 then .error "unsupported protocol level"
               else handleConnectFlags genID r2) from rfl, if_pos hl] at hok
            exact absurd hok (by simp)
      · rw [show handleConnectAfterName genID (some (pn, r1)) =
          (if pn ≠ mqttProtoName then .error "unsupported protocol"
           else handleConnectLevel genID r1) from rfl, if_pos hpn] at hok
        exact absurd hok (by simp)

/-- C2 counterexample.  A CONNECT with protocol name "MQTT", level 4, and
flags `0x80` (username bit only — no will, will-QoS, or will-retain bit)
satisfies the acceptance condition stated by the claim, yet the broker
rejects it: `handleConnect` fails, so the connection is closed and no
CONNACK is sent. -/
theorem handleConnect_claim_counterexample :
    claimConnectOK (connectPayload mqttProtoName 4 128 0 0 [] []) ∧
    (handleConnect [] (connectPayload mqttProtoName 4 128 0 0 [] [])).isOk = false := by
  constructor
  · exact ⟨[4, 128, 0, 0, 0, 0], [128, 0, 0, 0, 0], 128, [0, 0, 0, 0], 0, [0, 0], [], [],
      by decide, rfl, rfl, by decide, by decide, by decide, by decide, by decide, by decide⟩
  · decide

/-- Witness for C2 (amended): a fully clean CONNECT satisfies the amended
acceptance condition, and by the iff it is indeed accepted. -/
theorem handleConnect_connack_iff_witness :
    (handleConnect [97] (connectPayload mqttProtoName 4 0 0 60 [99] [])).isOk = true :=
  (handleConnect_connack_iff [97] (connectPayload mqttProtoName 4 0 0 60 [99] [])).1.mpr
    ⟨[4, 0, 0, 60, 0, 1, 99], [0, 0, 60, 0, 1, 99], 0, [0, 60, 0, 1, 99], 60, [0, 1, 99],
      [99], [], by decide, rfl, rfl, by decide, by decide, by decide, by decide,
      by decide, by decide, by decide, by decide⟩

/-! ### SUBSCRIBE handling (`Broker.handleSubscribe`, mqttbroker) -/

/-- Reading a length-prefixed string consumes at least its 2-byte length
header. -/
theorem readString_rest_length {bs t rest : List Nat}
    (h : readString bs = some (t, rest)) : rest.length + 2 ≤ bs.length := by
  match bs with
  | [] => rw [readString, show readUint16 [] = none from rfl] at h; cases h
  | [b] => rw [readString, show readUint16 [b] = none from rfl] at h; cases h
  | b0 :: b1 :: rest0 =>
    rw [readString, show readUint16 (b0 :: b1 :: rest0) =
      some ((b0 <<< 8) ||| b1, rest0) from rfl] at h
    rw [show readStringAfterLen (some ((b0 <<< 8) ||| b1, rest0)) =
      (if (b0 <<< 8) ||| b1 ≤ rest0.length then
        some (rest0.take ((b0 <<< 8) ||| b1), rest0.drop ((b0 <<< 8) ||| b1))
      else none) from rfl] at h
    by_cases hl : (b0 <<< 8) ||| b1 ≤ rest0.length
    · rw [if_pos hl] at h
      injection h with h2
      have h3 : rest = rest0.drop ((b0 <<< 8) ||| b1) := by
        simpa using (congrArg Prod.snd h2).symm
      rw [h3]
      simp only [List.length_drop, List.length_cons]
      omega
    · rw [if_neg hl] at h; cases h

/-- The `buildSubAck` encoder of mqttbroker: header `0x90`, remaining
length, 2-byte packet identifier, one granted-QoS-0 byte per topic.
`none` is the "no topics to ack" error (the Go guard is `topics <= 0`,
which over `Nat` is `topics = 0`). -/
def buildSubAck (packetID topics : Nat) : Option (List Nat) :=
  if topics = 0 then none
  else
    let remaining := 2 + topics
    some (0x90 :: (encodeRemainingLength remaining ++
      byteOf (packetID >>> 8) :: byteOf (packetID &&& 0xFF) :: List.replicate topics 0))

/-- The topic-filter loop of `Broker.handleSubscribe`: while bytes remain,
read a length-prefixed topic, require a QoS byte equal to 0, and collect the
topic.  `none` models any of the source's error returns (read error,
"missing qos byte", "unsupported qos").  The source adds each topic to the
session's subscription set as it parses; since an error closes the
connection and discards the session, the observable effect is the returned
topic list on success. -/
def readTopicFilters (bytes : List Nat) : Option (List (List Nat)) :=
  if bytes.isEmpty then some []
  else
    match hr : readString bytes with
    | none => none
    | some (topic, rest) =>
      match rest with
      | [] => none
      | qos :: rest2 =>
        if qos ≠ 0 then none
        else
          match readTopicFilters rest2 with
          | none => none
          | some ts => some (topic :: ts)
termination_by bytes.length
decreasing_by
  have hlen := readString_rest_length hr
  simp only [List.length_cons] at hlen
  omega

/-- Acknowledgement step of `Broker.handleSubscribe`: the SUBACK packet is
written only when `buildSubAck` succeeds. -/
def handleSubscribeAck (newSubs : List (List Nat)) :
    Option (List Nat) → Option (List (List Nat) × List Nat)
  | none => none
  | some packet => some (newSubs, packet)

/-- Continuation of `Broker.handleSubscribe` once the topic filters are
parsed. -/
def handleSubscribeAfterFilters (subs : List (List Nat)) (packetID : Nat) :
    Option (List (List Nat)) → Option (List (List Nat) × List Nat)
  | none => none
  | some topics => handleSubscribeAck (subs ++ topics) (buildSubAck packetID topics.length)

/-- Packet-identifier step of `Broker.handleSubscribe`. -/
def handleSubscribePid (subs : List (List Nat)) :
    Option (Nat × List Nat) → Option (List (List Nat) × List Nat)
  | none => none
  | some (packetID, rest) =>
    handleSubscribeAfterFilters subs packetID (readTopicFilters rest)

/-- The `Broker.handleSubscribe` of mqttbroker over a SUBSCRIBE packet
body, given the session's current subscription set.  `some (subs, packet)`
is the new subscription set and the SUBACK written back; `none` is an error
return, after which `handleConn` closes the connection without a SUBACK. -/
def handleSubscribe (subs : List (List Nat)) (payload : List Nat) :
    Option (List (List Nat) × List Nat) :=
  handleSubscribePid subs (readUint16 payload)

/-- C9.  A SUBSCRIBE packet whose body is only the 2-byte packet identifier
parses zero topic filters; `buildSubAck` rejects zero granted topics, so
`handleSubscribe` errors and the connection is closed without a SUBACK. -/
theorem subscribe_empty_filters_closes (subs : List (List Nat)) (b0 b1 : Nat) :
    handleSubscribe subs [b0, b1] = none ∧
      buildSubAck ((b0 <<< 8) ||| b1) 0 = none := by
  have hack : buildSubAck ((b0 <<< 8) ||| b1) 0 = none := by
    rw [buildSubAck, if_pos rfl]
  refine ⟨?_, hack⟩
  rw [handleSubscribe, show readUint16 [b0, b1] = some ((b0 <<< 8) ||| b1, []) from rfl]
  rw [show handleSubscribePid subs (some ((b0 <<< 8) ||| b1, ([] : List Nat))) =
    handleSubscribeAfterFilters subs ((b0 <<< 8) ||| b1) (readTopicFilters []) from rfl]
  have hempty : readTopicFilters [] = some [] := by
    rw [readTopicFilters]
    rfl
  rw [hempty]
  rw [show handleSubscribeAfterFilters subs ((b0 <<< 8) ||| b1) (some []) =
    handleSubscribeAck (subs ++ []) (buildSubAck ((b0 <<< 8) ||| b1) 0) from rfl]
  rw [hack]
  rfl

/-! ### Broker sessions, fan-out and shutdown (mqttbroker) -/

/-- A `clientSession` of mqttbroker.  `sid` stands for the Go pointer
identity of the session (sessions are registry keys and are compared by
pointer); `subs` is the subscription set, `closed` the atomic closed flag. -/
structure Session where
  sid : Nat
  clientID : List Nat
  subs : List (List Nat)
  closed : Bool
deriving DecidableEq

/-- Observable broker effects: a synchronous invocation of the installed
publish handler, and a packet written to a session's connection. -/
inductive BrokerEvent where
  | handlerCall (clientID topic payload : List Nat)
  | deliver (sid : Nat) (packet : List Nat)
deriving DecidableEq

/-- The registry loop of `Broker.forwardToSubscribers` once the packet is
built: every session other than the excluded sender whose subscription set
contains the topic gets the packet written (write errors are only logged). -/
def forwardPacket (clients : List Session) (topic : List Nat) (exclude : Nat) :
    Option (List Nat) → List BrokerEvent
  | none => []
  | some packet =>
    clients.filterMap (fun s =>
      if s.sid = exclude then none
      else if topic ∈ s.subs then some (.deliver s.sid packet) else none)

/-- The `Broker.forwardToSubscribers` of mqttbroker: encode the packet
(returning silently on an encoding error), then fan out to every other
subscribed session. -/
def forwardToSubscribers (clients : List Session) (topic payload : List Nat)
    (exclude : Nat) : List BrokerEvent :=
  forwardPacket clients topic exclude (buildPublishPacket topic payload)

/-- The PUBLISH case of `Broker.handleConn` after `parsePublish` succeeds:
the message is stamped with the sender's client ID, the installed handler
is invoked synchronously (first), then the packet is forwarded to the other
subscribed sessions, the sender excluded by identity. -/
def processPublish (clients : List Session) (sender : Session)
    (topic payload : List Nat) : List BrokerEvent :=
  .handlerCall sender.clientID topic payload ::
    forwardToSubscribers clients topic payload sender.sid

/-- A delivery event in the fan-out always comes from a registered session
with the matching identity that passes both checks. -/
theorem deliver_mem_forwardPacket {clients : List Session} {topic : List Nat}
    {exclude a : Nat} {packet pkt : List Nat}
    (h : BrokerEvent.deliver a pkt ∈ forwardPacket clients topic exclude (some packet)) :
    ∃ u ∈ clients, u.sid = a ∧ pkt = packet ∧ u.sid ≠ exclude ∧ topic ∈ u.subs := by
  rw [forwardPacket] at h
  obtain ⟨u, hu, hfu⟩ := List.mem_filterMap.mp h
  by_cases he : u.sid = exclude
  · rw [if_pos he] at hfu; cases hfu
  · rw [if_neg he] at hfu
    by_cases hm : topic ∈ u.subs
    · rw [if_pos hm] at hfu
      injection hfu with h1
      cases h1
      exact ⟨u, hu, rfl, rfl, he, hm⟩
    · rw [if_neg hm] at hfu; cases hfu

/-- In a registry with pairwise-distinct session identities (Go pointers
are distinct), a session is determined by its identity. -/
theorem session_sid_inj {clients : List Session}
    (hdis : clients.Pairwise (fun a b => a.sid ≠ b.sid)) :
    ∀ u ∈ clients, ∀ s ∈ clients, u.sid = s.sid → u = s := by
  induction clients with
  | nil => intro u hu; cases hu
  | cons t rest ih =>
    rw [List.pairwise_cons] at hdis
    intro u hu s hs heq
    rcases List.mem_cons.mp hu with hu1 | hu2 <;>
      rcases List.mem_cons.mp hs with hs1 | hs2
    · rw [hu1, hs1]
    · exact absurd (hu1 ▸ heq) (hdis.1 s hs2)
    · exact absurd (hs1 ▸ heq.symm) (hdis.1 u hu2)
    · exact ih hdis.2 u hu2 s hs2 heq

/-- C3.  When a Connected client publishes a QoS-0 message, the handler is
invoked synchronously first with the sender's client ID; the encoded packet
(which decodes back to exactly the published topic and payload) is then
delivered to precisely the other registered sessions whose subscription set
contains the topic string, and to nothing else: the sender never receives
it, a session without that exact topic in its set never receives it, and
every delivered packet is that encoding. -/
theorem publish_fanout (clients : List Session) (sender : Session)
    (topic payload : List Nat)
    (htopic : topic.length ≤ 65535)
    (hrem : 2 + topic.length + payload.length ≤ 268435455)
    (hdis : clients.Pairwise (fun a b => a.sid ≠ b.sid)) :
    ∃ packet, buildPublishPacket topic payload = some packet ∧
      decodePublishPacket packet = some (topic, payload) ∧
      (processPublish clients sender topic payload).head? =
        some (.handlerCall sender.clientID topic payload) ∧
      (∀ s ∈ clients, BrokerEvent.deliver s.sid packet ∈
          processPublish clients sender topic payload ↔
        s.sid ≠ sender.sid ∧ topic ∈ s.subs) ∧
      (∀ a pkt, BrokerEvent.deliver a pkt ∈
          processPublish clients sender topic payload → pkt = packet) := by
  obtain ⟨packet, hbuild, hdec⟩ := publish_packet_round_trip topic payload htopic hrem
  refine ⟨packet, hbuild, hdec, rfl, ?_, ?_⟩
  · intro s hs
    constructor
    · intro hmem
      rcases List.mem_cons.mp hmem with hbad | hmem2
      · cases hbad
      · rw [forwardToSubscribers, hbuild] at hmem2
        obtain ⟨u, hu, husid, _, hune, humem⟩ := deliver_mem_forwardPacket hmem2
        have : u = s := session_sid_inj hdis u hu s hs husid
        subst this
        exact ⟨hune, humem⟩
    · rintro ⟨hne, hmem⟩
      refine List.mem_cons.mpr (Or.inr ?_)
      rw [forwardToSubscribers, hbuild, forwardPacket]
      refine List.mem_filterMap.mpr ⟨s, hs, ?_⟩
      rw [if_neg hne, if_pos hmem]
  · intro a pkt hmem
    rcases List.mem_cons.mp hmem with hbad | hmem2
    · cases hbad
    · rw [forwardToSubscribers, hbuild] at hmem2
      obtain ⟨u, _, _, hpkt, _, _⟩ := deliver_mem_forwardPacket hmem2
      exact hpkt

/-- Witness for C3: a two-session registry in which only the non-sender is
subscribed to the topic. -/
theorem publish_fanout_witness :
    ∃ packet, buildPublishPacket [116] [7] = some packet ∧
      decodePublishPacket packet = some ([116], [7]) ∧
      (processPublish [⟨0, [97], [], false⟩, ⟨1, [98], [[116]], false⟩]
          ⟨0, [97], [], false⟩ [116] [7]).head? =
        some (.handlerCall [97] [116] [7]) ∧
      (∀ s ∈ [(⟨0, [97], [], false⟩ : Session), ⟨1, [98], [[116]], false⟩],
        BrokerEvent.deliver s.sid packet ∈
            processPublish [⟨0, [97], [], false⟩, ⟨1, [98], [[116]], false⟩]
              ⟨0, [97], [], false⟩ [116] [7] ↔
          s.sid ≠ 0 ∧ [116] ∈ s.subs) ∧
      (∀ a pkt, BrokerEvent.deliver a pkt ∈
          processPublish [⟨0, [97], [], false⟩, ⟨1, [98], [[116]], false⟩]
            ⟨0, [97], [], false⟩ [116] [7] → pkt = packet) :=
  publish_fanout [⟨0, [97], [], false⟩, ⟨1, [98], [[116]], false⟩]
    ⟨0, [97], [], false⟩ [116] [7] (by decide) (by decide) (by decide)

/-! ### Broker shutdown (`Broker.Stop`, mqttbroker) -/

/-- The broker state touched by `Broker.Stop`: the one-shot shutting-down
flag, the listener (if any) and the session registry. -/
structure BrokerState where
  shuttingDown : Bool
  listener : Option Nat
  clients : List Session
deriving DecidableEq

/-- Side effects performed by `Broker.Stop`, in order. -/
inductive StopAction where
  | closeListener
  | markClosed (sid : Nat)
  | closeConn (sid : Nat)
  | waitThreads
deriving DecidableEq

/-- The `Broker.Stop` of mqttbroker: the compare-and-swap on the
shutting-down flag makes every call after the first return `nil`
immediately; the first call clears and closes the listener, marks every
registered session closed and closes its connection, empties the registry,
and waits for the connection goroutines (`wg.Wait`).  The returned error is
always `nil` (`none`). -/
def brokerStop (b : BrokerState) : Option String × BrokerState × List StopAction :=
  if b.shuttingDown then (none, b, [])
  else
    (none, { shuttingDown := true, listener := none, clients := [] },
      (match b.listener with
        | some _ => [StopAction.closeListener]
        | none => []) ++
      b.clients.flatMap (fun s => [StopAction.markClosed s.sid, StopAction.closeConn s.sid]) ++
      [StopAction.waitThreads])

/-- C10.  `Broker.Stop` always returns `nil`; the first call on a running
broker flips the shutting-down flag, clears the listener, marks and closes
every registered session, empties the registry and waits for the connection
threads; any call on an already-shutting-down broker returns `nil`
immediately with no state change and no side effect — in particular a
second call after a first is a no-op. -/
theorem broker_stop_idempotent (b : BrokerState) :
    (brokerStop b).1 = none ∧
    ((brokerStop b).2.1).shuttingDown = true ∧
    brokerStop ((brokerStop b).2.1) = (none, (brokerStop b).2.1, []) ∧
    (b.shuttingDown = false →
      (brokerStop b).2.1.listener = none ∧
      (brokerStop b).2.1.clients = [] ∧
      (brokerStop b).2.2 =
        (match b.listener with
          | some _ => [StopAction.closeListener]
          | none => []) ++
        b.clients.flatMap (fun s => [StopAction.markClosed s.sid, StopAction.closeConn s.sid]) ++
        [StopAction.waitThreads]) ∧
    (b.shuttingDown = true → brokerStop b = (none, b, [])) := by
  by_cases hb : b.shuttingDown
  · refine ⟨?_, ?_, ?_, ?_, ?_⟩ <;> simp [brokerStop, hb]
  · simp only [Bool.not_eq_true] at hb
    refine ⟨?_, ?_, ?_, ?_, ?_⟩ <;> simp [brokerStop, hb]

/-- Witness for C10 on a running broker with one listener and one session:
the second call is a no-op and the first empties the registry. -/
theorem broker_stop_idempotent_witness :
    brokerStop ((brokerStop ⟨false, some 0, [⟨5, [99], [[116]], false⟩]⟩).2.1) =
      (none, (brokerStop ⟨false, some 0, [⟨5, [99], [[116]], false⟩]⟩).2.1, []) ∧
    (brokerStop ⟨false, some 0, [⟨5, [99], [[116]], false⟩]⟩).2.1.clients = [] :=
  ⟨(broker_stop_idempotent ⟨false, some 0, [⟨5, [99], [[116]], false⟩]⟩).2.2.1,
    ((broker_stop_idempotent ⟨false, some 0, [⟨5, [99], [[116]], false⟩]⟩).2.2.2.1 rfl).2.1⟩

/-! ### Application-layer ingestion (internal/app/app.go)

Go strings are modelled as `List Char` (Go string equality and slicing are
element-wise).  The `encoding/json` decoders and `time.Parse` are Go
standard-library calls; they appear as the abstract `Codecs` record so
that the router's behaviour can be stated for every decode outcome.  The
persistence layer (`internal/store`) is modelled as a record of lists; a
successful insert appends, and the SQLite upsert keyed on
`(scanner_id, tag_address)` replaces or appends. -/

/-- Splitting on a separator character, with the semantics of Go
`strings.Split(s, sep)` for a one-character separator: adjacent separators
produce empty fields and the result is never empty. -/
def splitOnChar (sep : Char) : List Char → List (List Char)
  | [] => [[]]
  | c :: rest =>
    if c = sep then [] :: splitOnChar sep rest
    else
      match splitOnChar sep rest with
      | [] => [[c]]
      | g :: gs => (c :: g) :: gs

/-- Go `strings.TrimSpace`: drop whitespace from both ends. -/
def goTrimSpace (s : List Char) : List Char :=
  ((s.dropWhile Char.isWhitespace).reverse.dropWhile Char.isWhitespace).reverse

/-- Go `strings.ToLower` (ASCII suffices for this code base). -/
def goToLower (s : List Char) : List Char := s.map Char.toLower

/-- Go `strings.ToUpper` (ASCII suffices for this code base). -/
def goToUpper (s : List Char) : List Char := s.map Char.toUpper

/-- `model.BeaconReading`: the timestamp is `none` for Go's zero
`time.Time` (`IsZero`); the beacon location's three float64 coordinates are
reals. -/
structure BeaconReading where
  beaconID : List Char
  tagID : List Char
  rssi : Int
  timestamp : Option Nat
  locX : ℝ
  locY : ℝ
  locZ : ℝ
  metadata : List (List Char × List Char)

/-- `model.IngestionError`. -/
structure IngestionError where
  beaconID : List Char
  payload : List Char
  error : List Char
deriving DecidableEq

/-- `model.DiscoveredBeacon` as constructed by `handleScannerInventory`. -/
structure DiscoveredBeacon where
  scannerID : List Char
  tagAddress : List Char
  tagName : List Char
  rssi : Int
  manufacturerID : Option Int
  manufacturerData : List Char
  txPower : Option Int
  eventType : List Char
  lastSeen : Nat
deriving DecidableEq

/-- `model.TrainingCommand` as constructed by `handleTrainingCommand`. -/
structure TrainingCommand where
  room : List Char
  command : List Char
  timestamp : Nat
  source : List Char
  receivedAt : Nat
deriving DecidableEq

/-- The persistence port: the lists of rows the app can insert into. -/
structure Store where
  readings : List BeaconReading
  ingestionErrors : List IngestionError
  discovered : List DiscoveredBeacon
  training : List TrainingCommand

/-- An inbound `mqttbroker.PublishMessage` as the app's handler sees it. -/
structure AppMsg where
  clientID : List Char
  topic : List Char
  payload : List Char

/-- The `scannerInventoryPayload` JSON schema of app.go. -/
structure ScannerInventoryPayload where
  scannerID : List Char
  tagAddress : List Char
  tagName : List Char
  rssi : Int
  manufacturerID : Option Int
  manufacturerData : List Char
  txPower : Option Int
  eventType : List Char
  timestamp : List Char

/-- The training-command JSON schema of `handleTrainingCommand`. -/
structure TrainingPayload where
  room : List Char
  command : List Char
  timestamp : List Char
  source : List Char

/-- The Go standard-library calls the router depends on, abstracted:
`json.Unmarshal` into each payload schema, and RFC3339 time parsing (the
source tries `time.RFC3339Nano` then `time.RFC3339`; both are folded into
one parser returning `none` when neither succeeds). -/
structure Codecs where
  decodeBeacon : List Char → Except (List Char) BeaconReading
  decodeInventory : List Char → Except (List Char) ScannerInventoryPayload
  decodeTraining : List Char → Except (List Char) TrainingPayload
  parseTimeRFC3339 : List Char → Option Nat

/-- The `truncateString` of app.go.  Go first compares the byte length,
then the rune count; over the char-list model both are `s.length`, and
`string(runes[:max])` is `take`.  The `max ≤ 0` guard is `max = 0` over
`Nat`. -/
def truncateString (s : List Char) (max : Nat) : List Char :=
  if max = 0 ∨ s.length ≤ max then s else s.take max

/-- The `App.recordIngestionError` of app.go: append one row with the
payload truncated to 4096; the store is always present in this model and
the insert succeeds. -/
def recordIngestionError (st : Store) (beaconID payload cause : List Char) : Store :=
  { st with ingestionErrors := st.ingestionErrors ++
      [{ beaconID := beaconID, payload := truncateString payload 4096, error := cause }] }

/-- The beacon-ID fallback of `App.handleBeaconReading`: if the decoded
reading has an empty beacon ID, take the topic segment after `beacons/`
(`parts[1]` when the split has at least two parts). -/
def beaconIDFromTopic (reading : BeaconReading) (topic : List Char) : BeaconReading :=
  if reading.beaconID = [] then
    match splitOnChar '/' topic with
    | _ :: p1 :: _ => { reading with beaconID := p1 }
    | _ => reading
  else reading

/-- The timestamp fallback of `App.handleBeaconReading`: a zero timestamp
is replaced by the current UTC time (the `now` parameter). -/
def stampTimestamp (reading : BeaconReading) (now : Nat) : BeaconReading :=
  if reading.timestamp = none then { reading with timestamp := some now } else reading

/-- The text of the missing-identifier error (the `%q` quoting of
`fmt.Errorf` is abbreviated). -/
def missingIDsMsg (beaconID tagID : List Char) : List Char :=
  "missing required identifiers (beacon_id=".toList ++ beaconID ++
    " tag_id=".toList ++ tagID ++ ")".toList

/-- `App.handleBeaconReading` after a successful JSON decode: apply the two
fallbacks, reject (recording one ingestion error) if the beacon or tag ID
is still empty, otherwise persist the reading. -/
def handleBeaconDecoded (now : Nat) (st : Store) (msg : AppMsg)
    (r : BeaconReading) : Store :=
  let r1 := beaconIDFromTopic r msg.topic
  let r2 := stampTimestamp r1 now
  if r2.beaconID = [] ∨ r2.tagID = [] then
    recordIngestionError st r2.beaconID msg.payload (missingIDsMsg r2.beaconID r2.tagID)
  else { st with readings := st.readings ++ [r2] }

/-- Decode branching of `App.handleBeaconReading`. -/
def handleBeaconReadingD (now : Nat) (st : Store) (msg : AppMsg) :
    Except (List Char) BeaconReading → Store
  | .error e => recordIngestionError st [] msg.payload ("decode payload: ".toList ++ e)
  | .ok r => handleBeaconDecoded now st msg r

/-- The `App.handleBeaconReading` of app.go. -/
def handleBeaconReading (C : Codecs) (now : Nat) (st : Store) (msg : AppMsg) : Store :=
  handleBeaconReadingD now st msg (C.decodeBeacon msg.payload)

/-- The SQLite upsert of `Store.UpsertDiscoveredBeacon`, keyed on
`(scanner_id, tag_address)`: update the matching row or insert a new one.
(The store's own `LastSeen.IsZero` re-stamp is not modelled because the
handler always supplies a time.) -/
def upsertDiscoveredBeacon (l : List DiscoveredBeacon) (b : DiscoveredBeacon) :
    List DiscoveredBeacon :=
  if l.any (fun e => e.scannerID == b.scannerID && e.tagAddress == b.tagAddress) then
    l.map (fun e =>
      if e.scannerID == b.scannerID && e.tagAddress == b.tagAddress then b else e)
  else l ++ [b]

/-- `App.handleScannerInventory` after the JSON decode: default the scanner
ID from the topic, drop silently on a missing tag address, resolve the
last-seen time (empty or unparseable timestamps become `now`), upper-case
the tag address and upsert the discovered beacon. -/
def handleScannerInventoryD (C : Codecs) (now : Nat) (st : Store)
    (scannerID : List Char) : Except (List Char) ScannerInventoryPayload → Store
  | .error _ => st
  | .ok p0 =>
    let p := if p0.scannerID = [] then { p0 with scannerID := scannerID } else p0
    if p.tagAddress = [] then st
    else
      let lastSeen :=
        if p.timestamp = [] then now
        else
          match C.parseTimeRFC3339 p.timestamp with
          | some t => t
          | none => now
      let beacon : DiscoveredBeacon :=
        { scannerID := p.scannerID, tagAddress := goToUpper p.tagAddress,
          tagName := p.tagName, rssi := p.rssi,
          manufacturerID := p.manufacturerID,
          manufacturerData := p.manufacturerData, txPower := p.txPower,
          eventType := p.eventType, lastSeen := lastSeen }
      { st with discovered := upsertDiscoveredBeacon st.discovered beacon }

/-- Topic dispatch of `App.handleScannerMessage`: topics with fewer than 3
segments are ignored; `scanners/<id>/inventory` goes to the inventory
handler, `scanners/<id>/state` is only logged, anything else is ignored. -/
def handleScannerParts (C : Codecs) (now : Nat) (st : Store) (msg : AppMsg) :
    List (List Char) → Store
  | _ :: scannerID :: action :: _ =>
    if action = "inventory".toList then
      handleScannerInventoryD C now st scannerID (C.decodeInventory msg.payload)
    else st
  | _ => st

/-- The `App.handleScannerMessage` of app.go. -/
def handleScannerMessage (C : Codecs) (now : Nat) (st : Store) (msg : AppMsg) : Store :=
  handleScannerParts C now st msg (splitOnChar '/' msg.topic)

/-- The invalid-training-command error text (quoting abbreviated). -/
def invalidTrainingMsg (room command : List Char) : List Char :=
  "invalid training command (room=".toList ++ room ++
    " command=".toList ++ command ++ ")".toList

/-- `App.handleTrainingCommand` after the JSON decode: trim the room,
lower-case and trim the command, require a non-empty room and a command of
exactly "start" or "stop" (recording an ingestion error otherwise), then
persist the command with a parsed-or-now timestamp. -/
def handleTrainingD (C : Codecs) (now : Nat) (st : Store) (msg : AppMsg) :
    Except (List Char) TrainingPayload → Store
  | .error e =>
    recordIngestionError st "training".toList msg.payload ("decode payload: ".toList ++ e)
  | .ok p =>
    let room := goTrimSpace p.room
    let command := goTrimSpace (goToLower p.command)
    if room = [] ∨ (command ≠ "start".toList ∧ command ≠ "stop".toList) then
      recordIngestionError st "training".toList msg.payload (invalidTrainingMsg room command)
    else
      let parsedTime :=
        match C.parseTimeRFC3339 p.timestamp with
        | some t => t
        | none => now
      { st with training := st.training ++
          [{ room := room, command := command, timestamp := parsedTime,
             source := p.source, receivedAt := now }] }

/-- The `App.handleTrainingCommand` of app.go. -/
def handleTrainingCommand (C : Codecs) (now : Nat) (st : Store) (msg : AppMsg) : Store :=
  handleTrainingD C now st msg (C.decodeTraining msg.payload)

/-- The `App.handleMQTTPublish` dispatcher of app.go: route on the topic
string's prefix; the default case ignores the message. -/
def handleMQTTPublish (C : Codecs) (now : Nat) (st : Store) (msg : AppMsg) : Store :=
  if "beacons/".toList.isPrefixOf msg.topic then handleBeaconReading C now st msg
  else if "scanners/".toList.isPrefixOf msg.topic then handleScannerMessage C now st msg
  else if "catlocator/training/commands".toList.isPrefixOf msg.topic then
    handleTrainingCommand C now st msg
  else st

/-- The empty store. -/
def emptyStore : Store := ⟨[], [], [], []⟩

/-- The bytes of the JSON payload `{"tag_id":"x"}`. -/
def tagOnlyPayload : List Char := "\x7b\"tag_id\":\"x\"\x7d".toList

/-- The bytes of the JSON payload `{"tag_address":"aa"}`. -/
def tagAddressPayload : List Char := "\x7b\"tag_address\":\"aa\"\x7d".toList

/-- A concrete codec instance standing for the real standard library on the
two payloads above: `encoding/json` decodes `{"tag_id":"x"}` into a
`BeaconReading` whose only non-zero field is the tag ID, and decodes
`{"tag_address":"aa"}` into an inventory record whose only non-empty field
is the tag address. -/
noncomputable def demoCodecs : Codecs where
  decodeBeacon := fun _ => .ok ⟨[], "x".toList, 0, none, 0, 0, 0, []⟩
  decodeInventory := fun _ => .ok ⟨[], "aa".toList, [], 0, none, [], none, [], []⟩
  decodeTraining := fun _ => .error []
  parseTimeRFC3339 := fun _ => none

/-- C4 counterexample.  The topic `scanners/s1/inventory` starts with
neither `beacons/` nor `catlocator/training/commands`, yet handling a
publish on it (with a payload the inventory decoder accepts) upserts a
discovered beacon: the store does change, so such topics are not ignored. -/
theorem ingestion_ignores_claim_counterexample :
    ("beacons/".toList.isPrefixOf "scanners/s1/inventory".toList) = false ∧
    ("catlocator/training/commands".toList.isPrefixOf "scanners/s1/inventory".toList) = false ∧
    (handleMQTTPublish demoCodecs 5 emptyStore
        ⟨[], "scanners/s1/inventory".toList, tagAddressPayload⟩).discovered.length = 1 ∧
    handleMQTTPublish demoCodecs 5 emptyStore
        ⟨[], "scanners/s1/inventory".toList, tagAddressPayload⟩ ≠ emptyStore := by
  have hlen : (handleMQTTPublish demoCodecs 5 emptyStore
      ⟨[], "scanners/s1/inventory".toList, tagAddressPayload⟩).discovered.length = 1 := by
    rfl
  refine ⟨by decide, by decide, hlen, fun h => ?_⟩
  rw [h] at hlen
  exact absurd hlen (by decide)

/-- C4 (amended).  Every inbound publish whose topic starts with none of
the prefixes `beacons/`, `scanners/`, or `catlocator/training/commands`
falls through to the dispatcher's default case: the store is completely
unchanged, whatever the decoders, the time, or the payload. -/
theorem ingestion_ignores_unknown_topics (C : Codecs) (now : Nat) (st : Store)
    (msg : AppMsg)
    (h1 : "beacons/".toList.isPrefixOf msg.topic = false)
    (h2 : "scanners/".toList.isPrefixOf msg.topic = false)
    (h3 : "catlocator/training/commands".toList.isPrefixOf msg.topic = false) :
    handleMQTTPublish C now st msg = st := by
  rw [handleMQTTPublish, if_neg (by simp only [h1]; decide),
    if_neg (by simp only [h2]; decide), if_neg (by simp only [h3]; decide)]

/-- Witness for C4 (amended) on the topic `sensors/x`. -/
theorem ingestion_ignores_unknown_topics_witness :
    handleMQTTPublish demoCodecs 5 emptyStore ⟨[], "sensors/x".toList, []⟩ = emptyStore :=
  ingestion_ignores_unknown_topics demoCodecs 5 emptyStore
    ⟨[], "sensors/x".toList, []⟩ (by decide) (by decide) (by decide)

/-- The beacon-ID fallback never touches the timestamp. -/
theorem beaconIDFromTopic_timestamp (r : BeaconReading) (t : List Char) :
    (beaconIDFromTopic r t).timestamp = r.timestamp := by
  rw [beaconIDFromTopic]
  by_cases h : r.beaconID = []
  · rw [if_pos h]
    cases hs : splitOnChar '/' t with
    | nil => rfl
    | cons a rest => cases rest <;> rfl
  · rw [if_neg h]

/-- C5.  On the beacon path, after a successful JSON decode the beacon ID
is defaulted from the topic segment following `beacons/` and a missing
timestamp is stamped with the current time; if the beacon ID or tag ID is
still empty after these fallbacks the message is dropped with exactly one
ingestion error recorded and no reading persisted, and otherwise exactly
the repaired reading is persisted with no error. -/
theorem beacon_ingest_validation (C : Codecs) (now : Nat) (st : Store) (msg : AppMsg)
    (r : BeaconReading) (hdec : C.decodeBeacon msg.payload = .ok r) :
    ((stampTimestamp (beaconIDFromTopic r msg.topic) now).beaconID = [] ∨
        (stampTimestamp (beaconIDFromTopic r msg.topic) now).tagID = [] →
      (handleBeaconReading C now st msg).ingestionErrors =
        st.ingestionErrors ++
          [⟨(stampTimestamp (beaconIDFromTopic r msg.topic) now).beaconID,
            truncateString msg.payload 4096,
            missingIDsMsg (stampTimestamp (beaconIDFromTopic r msg.topic) now).beaconID
              (stampTimestamp (beaconIDFromTopic r msg.topic) now).tagID⟩] ∧
      (handleBeaconReading C now st msg).readings = st.readings) ∧
    (¬ ((stampTimestamp (beaconIDFromTopic r msg.topic) now).beaconID = [] ∨
        (stampTimestamp (beaconIDFromTopic r msg.topic) now).tagID = []) →
      (handleBeaconReading C now st msg).readings =
        st.readings ++ [stampTimestamp (beaconIDFromTopic r msg.topic) now] ∧
      (handleBeaconReading C now st msg).ingestionErrors = st.ingestionErrors) ∧
    (r.timestamp = none →
      (stampTimestamp (beaconIDFromTopic r msg.topic) now).timestamp = some now) := by
  have hrun : handleBeaconReading C now st msg =
      handleBeaconDecoded now st msg r := by
    rw [handleBeaconReading, hdec]
    rfl
  refine ⟨?_, ?_, ?_⟩
  · intro hbad
    rw [hrun, handleBeaconDecoded, if_pos hbad]
    exact ⟨rfl, rfl⟩
  · intro hgood
    rw [hrun, handleBeaconDecoded, if_neg hgood]
    exact ⟨rfl, rfl⟩
  · intro hts
    rw [stampTimestamp, if_pos (by rw [beaconIDFromTopic_timestamp]; exact hts)]

/-- Witness for C5 at the specification's own example: `{"tag_id":"x"}`
published on `beacons//readings` (the topic segment after `beacons/` is
empty, so no beacon ID can be derived) records exactly one ingestion error
and persists no reading. -/
theorem beacon_ingest_validation_witness :
    (handleBeaconReading demoCodecs 5 emptyStore
        ⟨[], "beacons//readings".toList, tagOnlyPayload⟩).ingestionErrors =
      emptyStore.ingestionErrors ++
        [⟨(stampTimestamp (beaconIDFromTopic ⟨[], "x".toList, 0, none, 0, 0, 0, []⟩
            "beacons//readings".toList) 5).beaconID,
          truncateString tagOnlyPayload 4096,
          missingIDsMsg
            (stampTimestamp (beaconIDFromTopic ⟨[], "x".toList, 0, none, 0, 0, 0, []⟩
              "beacons//readings".toList) 5).beaconID
            (stampTimestamp (beaconIDFromTopic ⟨[], "x".toList, 0, none, 0, 0, 0, []⟩
              "beacons//readings".toList) 5).tagID⟩] ∧
    (handleBeaconReading demoCodecs 5 emptyStore
        ⟨[], "beacons//readings".toList, tagOnlyPayload⟩).readings =
      emptyStore.readings :=
  (beacon_ingest_validation demoCodecs 5 emptyStore
      ⟨[], "beacons//readings".toList, tagOnlyPayload⟩
      ⟨[], "x".toList, 0, none, 0, 0, 0, []⟩ rfl).1
    (Or.inl (by decide))

/-! ### Location estimator (`triangulateLocation`, app.go)

The estimator's interior arithmetic (normal equations, Cramer solution,
weighted z, residual) is modelled over `ℝ`; its comparisons use classical
decidability, so the definitions of this section are `noncomputable`.  The
RSSI-to-distance conversion and its usable-point filter, which claim C7 is
about, are additionally modelled at float64 precision with the `GoFloat`
type below, because `math.Pow` can overflow to `+Inf` there and the
filter's treatment of non-finite values is exactly what the claim
concerns. -/

open Classical

/-- A float64 value as the estimator's distance computation can produce
it: a finite real, one of the two infinities, or NaN.  Rounding of finite
values is not modelled; the overflow and underflow behaviour of the one
operation used (`math.Pow`) is. -/
inductive GoFloat where
  | finite (x : ℝ)
  | pinf
  | ninf
  | nan

/-- Go `math.IsNaN` over the float64 model. -/
def GoFloat.isNaN : GoFloat → Prop
  | .nan => True
  | _ => False

/-- The float64 comparison `d > 0`: `+Inf` compares greater than zero and
NaN compares false. -/
def GoFloat.pos : GoFloat → Prop
  | .finite x => 0 < x
  | .pinf => True
  | .ninf => False
  | .nan => False

/-- Finiteness of a float64 value (neither infinite nor NaN). -/
def GoFloat.finiteF : GoFloat → Prop
  | .finite _ => True
  | .pinf => False
  | .ninf => False
  | .nan => False

/-- Modelled from the float64 semantics of Go `math.Pow(10, e)` at a
finite exponent: the exact real `10^e` while it lies in the finite float64
range, `+Inf` once it reaches the top of that range (overflow at
`2^1024`), and `+0` below the smallest subnormal (underflow below
`2^(-1075)`).  Round-to-nearest inside the finite range, and the exact tie
behaviour at the two range boundaries, are not modelled — no claim
depends on them. -/
noncomputable def goPowTen (e : ℝ) : GoFloat :=
  if (2 : ℝ) ^ (1024 : ℕ) ≤ (10 : ℝ) ^ e then .pinf
  else if (10 : ℝ) ^ e < (2 : ℝ) ^ (-1075 : ℤ) then .finite 0
  else .finite ((10 : ℝ) ^ e)

/-- `model.Location`. -/
structure Location where
  x : ℝ
  y : ℝ
  z : ℝ

/-- The fields of `model.StoredBeaconReading` that `triangulateLocation`
reads: the RSSI and the beacon's fixed location. -/
structure StoredBeaconReading where
  rssi : Int
  loc : Location

/-- `model.RoomDefinition` as used by the room matcher: a name, a center
and a radius. -/
structure RoomDefinition where
  name : List Char
  x : ℝ
  y : ℝ
  z : ℝ
  radius : ℝ

/-- The `RoomMatch` rows of the triangulation result. -/
structure RoomMatch where
  name : List Char
  distance : ℝ
  radius : ℝ
  withinRadius : Prop

/-- The `triangulationResult` of app.go; `location = none` models the
degenerate returns that leave the Location at its zero value with no
estimate. -/
structure TriangulationResult where
  location : Option Location
  confidence : ℝ
  residual : ℝ
  beaconCount : Nat
  message : List Char
  rooms : List RoomMatch

/-- The `rssiToDistance` of app.go over the float64 model: the
log-distance path-loss formula with `txPower = -59` dBm at 1 m and
path-loss exponent `n = 2`, computed by `math.Pow(10, exponent)`. -/
noncomputable def rssiToDistanceF (rssi : Int) : GoFloat :=
  let txPower : ℝ := -59
  let n : ℝ := 2
  let exponent := (txPower - (rssi : ℝ)) / (10 * n)
  goPowTen exponent

/-- The per-reading usable-point filter of `triangulateLocation` over the
float64 model: a reading is kept exactly when `!math.IsNaN(d) && d > 0`.
Note that this test keeps `d = +Inf`. -/
noncomputable def keepPointF (r : StoredBeaconReading) :
    Option (ℝ × ℝ × ℝ × GoFloat) :=
  let d := rssiToDistanceF r.rssi
  if ¬ d.isNaN ∧ d.pos then some (r.loc.x, r.loc.y, r.loc.z, d) else none

/-- The usable points of `triangulateLocation` over the float64 model. -/
noncomputable def usablePointsF (readings : List StoredBeaconReading) :
    List (ℝ × ℝ × ℝ × GoFloat) :=
  readings.filterMap keepPointF

/-- The `rssiToDistance` of app.go over the real-valued interior model
used by the multilateration arithmetic (claims C6 and C8); the
float64-precise version, which decides what the filter keeps, is
`rssiToDistanceF` above. -/
noncomputable def rssiToDistance (rssi : Int) : ℝ :=
  let txPower : ℝ := -59
  let n : ℝ := 2
  let exponent := (txPower - (rssi : ℝ)) / (10 * n)
  (10 : ℝ) ^ exponent

/-- The usable (position, distance) points built by the filtering loop of
`triangulateLocation`, over the real-valued interior model: there the
source's keep-test `!math.IsNaN(d) && d > 0` reduces to `0 < d`, since a
real is never NaN (the float64-precise filter is `usablePointsF`). -/
noncomputable def usablePoints (readings : List StoredBeaconReading) :
    List (ℝ × ℝ × ℝ × ℝ) :=
  readings.filterMap (fun r =>
    let d := rssiToDistance r.rssi
    if 0 < d then some (r.loc.x, r.loc.y, r.loc.z, d) else none)

/-- The accumulated 2×2 normal equations (`a11 a12 a22 b1 b2` in the
source). -/
structure NormalEq where
  a11 : ℝ
  a12 : ℝ
  a22 : ℝ
  b1 : ℝ
  b2 : ℝ

/-- One row of the linearized multilateration accumulation, with the first
usable point as reference. -/
noncomputable def normalEqAccum (ref : ℝ × ℝ × ℝ × ℝ) (acc : NormalEq)
    (p : ℝ × ℝ × ℝ × ℝ) : NormalEq :=
  let ai := 2 * (p.1 - ref.1)
  let bi := 2 * (p.2.1 - ref.2.1)
  let ci := (p.1 * p.1 + p.2.1 * p.2.1 - p.2.2.2 * p.2.2.2) -
    (ref.1 * ref.1 + ref.2.1 * ref.2.1 - ref.2.2.2 * ref.2.2.2)
  ⟨acc.a11 + ai * ai, acc.a12 + ai * bi, acc.a22 + bi * bi,
    acc.b1 + ai * ci, acc.b2 + bi * ci⟩

/-- The accumulation loop of `triangulateLocation` over every non-reference
point. -/
noncomputable def normalEq : List (ℝ × ℝ × ℝ × ℝ) → NormalEq
  | [] => ⟨0, 0, 0, 0, 0⟩
  | ref :: rest => rest.foldl (normalEqAccum ref) ⟨0, 0, 0, 0, 0⟩

/-- The Cramer determinant `a11*a22 - a12*a12` of the normal equations. -/
noncomputable def detOf (points : List (ℝ × ℝ × ℝ × ℝ)) : ℝ :=
  (normalEq points).a11 * (normalEq points).a22 -
    (normalEq points).a12 * (normalEq points).a12

/-- The room-matching loop of `triangulateLocation`: Euclidean distance
from the estimate to each room's center, with
`withinRadius = distance ≤ radius`, in input order. -/
noncomputable def roomMatchesOf (x y z : ℝ) (rooms : List RoomDefinition) :
    List RoomMatch :=
  rooms.map (fun room =>
    let dx := x - room.x
    let dy := y - room.y
    let dz := z - room.z
    let dist := Real.sqrt (dx * dx + dy * dy + dz * dz)
    ⟨room.name, dist, room.radius, dist ≤ room.radius⟩)

/-- The ordering passed to `sort.Slice` in `triangulateLocation`. -/
def roomSortLt (a b : RoomMatch) : Prop := a.distance < b.distance

/-- The contract of Go's `sort.Slice` with the distance ordering: the
output is a permutation of the input that is sorted with respect to the
less function.  Go documents `sort.Slice` as not guaranteed to be stable,
so this relation is the faithful semantics of the call — any such
permutation may be returned. -/
def SortSliceSpec (input output : List RoomMatch) : Prop :=
  output.Perm input ∧ output.Pairwise (fun a b => ¬ roomSortLt b a)

/-- Stability in the sense claimed by the specification ("ties broken by
input order"): any two tied entries appear in the output in their input
order. -/
def TiesInInputOrder (input output : List RoomMatch) : Prop :=
  ∀ a b, List.Sublist [a, b] input → a.distance = b.distance →
    List.Sublist [a, b] output

/-- The successful branch of `triangulateLocation`: Cramer solution for
(x, y), inverse-distance-weighted z, RMS residual, clamped confidence, and
the sorted room matches (`sortImpl` stands for the permutation `sort.Slice`
produces). -/
noncomputable def triangulateSuccess (sortImpl : List RoomMatch → List RoomMatch)
    (readings : List StoredBeaconReading) (rooms : List RoomDefinition) :
    TriangulationResult :=
  let points := usablePoints readings
  let ne := normalEq points
  let det := ne.a11 * ne.a22 - ne.a12 * ne.a12
  let x := (ne.b1 * ne.a22 - ne.b2 * ne.a12) / det
  let y := (ne.a11 * ne.b2 - ne.a12 * ne.b1) / det
  let weightSum := points.foldl (fun acc p => acc + 1 / (p.2.2.2 + 1e-6)) (0 : ℝ)
  let zSum := points.foldl (fun acc p => acc + 1 / (p.2.2.2 + 1e-6) * p.2.2.1) (0 : ℝ)
  let z := if 0 < weightSum then zSum / weightSum else 0
  let residual := Real.sqrt ((points.foldl (fun acc p =>
    let dx := x - p.1
    let dy := y - p.2.1
    let dz := z - p.2.2.1
    let predicted := Real.sqrt (dx * dx + dy * dy + dz * dz)
    acc + (predicted - p.2.2.2) * (predicted - p.2.2.2)) (0 : ℝ)) / (points.length : ℝ))
  let confidence := Real.exp (-residual)
  let confidence := if 1 < confidence then 1 else confidence
  { location := some ⟨x, y, z⟩, confidence := confidence, residual := residual,
    beaconCount := points.length,
    message := "Distance estimates derived from RSSI via path-loss model".toList,
    rooms := sortImpl (roomMatchesOf x y z rooms) }

/-- The `triangulateLocation` of app.go.  The three guarded early returns
carry no location, a beacon count, an explanatory message and no rooms; the
final branch is `triangulateSuccess`. -/
noncomputable def triangulateLocation (sortImpl : List RoomMatch → List RoomMatch)
    (readings : List StoredBeaconReading) (rooms : List RoomDefinition) :
    TriangulationResult :=
  if readings.length < 3 then
    { location := none, confidence := 0, residual := 0,
      beaconCount := readings.length,
      message := "At least three beacons required".toList, rooms := [] }
  else if (usablePoints readings).length < 3 then
    { location := none, confidence := 0, residual := 0,
      beaconCount := (usablePoints readings).length,
      message := "Insufficient high-quality beacons".toList, rooms := [] }
  else if |detOf (usablePoints readings)| < 1e-9 then
    { location := none, confidence := 0, residual := 0,
      beaconCount := (usablePoints readings).length,
      message := "Triangulation unstable".toList, rooms := [] }
  else triangulateSuccess sortImpl readings rooms

/-- C6.  Whenever fewer than 3 usable (position, distance) pairs survive
the filter, or the normal-equations determinant has absolute value below
1e-9, the estimator returns a structured result with no location, a
non-empty explanatory message, and the relevant beacon count — it is a
total function, so no error is ever raised. -/
theorem triangulate_degenerate (sortImpl : List RoomMatch → List RoomMatch)
    (readings : List StoredBeaconReading) (rooms : List RoomDefinition)
    (h : (usablePoints readings).length < 3 ∨
      |detOf (usablePoints readings)| < 1e-9) :
    (triangulateLocation sortImpl readings rooms).location = none ∧
    (triangulateLocation sortImpl readings rooms).message ≠ [] ∧
    ((triangulateLocation sortImpl readings rooms).beaconCount = readings.length ∨
      (triangulateLocation sortImpl readings rooms).beaconCount =
        (usablePoints readings).length) := by
  rw [triangulateLocation]
  by_cases h1 : readings.length < 3
  · rw [if_pos h1]
    exact ⟨rfl, by show "At least three beacons required".toList ≠ []; decide,
      Or.inl rfl⟩
  · rw [if_neg h1]
    by_cases h2 : (usablePoints readings).length < 3
    · rw [if_pos h2]
      exact ⟨rfl, by show "Insufficient high-quality beacons".toList ≠ []; decide,
        Or.inr rfl⟩
    · rw [if_neg h2]
      have h3 : |detOf (usablePoints readings)| < 1e-9 := by
        rcases h with hl | hd
        · exact absurd hl h2
        · exact hd
      rw [if_pos h3]
      exact ⟨rfl, by show "Triangulation unstable".toList ≠ []; decide,
        Or.inr rfl⟩

/-- Witness for C6: with no readings at all the estimator reports "At least
three beacons required" and no location. -/
theorem triangulate_degenerate_witness :
    (triangulateLocation id [] []).location = none ∧
    (triangulateLocation id [] []).message ≠ [] ∧
    ((triangulateLocation id [] []).beaconCount =
        ([] : List StoredBeaconReading).length ∨
      (triangulateLocation id [] []).beaconCount =
        (usablePoints []).length) :=
  triangulate_degenerate id [] []
    (Or.inl (by
      show (usablePoints []).length < 3
      rw [show usablePoints ([] : List StoredBeaconReading) = [] from rfl]
      decide))

theorem two_pow_1024_le_ten_pow_347 : (2 : ℝ) ^ (1024 : ℕ) ≤ (10 : ℝ) ^ (347 : ℕ) := by
  have h : (2 : ℕ) ^ 1024 ≤ 10 ^ 347 := by decide
  calc (2 : ℝ) ^ (1024 : ℕ) = ((2 ^ 1024 : ℕ) : ℝ) := by push_cast; ring
    _ ≤ ((10 ^ 347 : ℕ) : ℝ) := Nat.cast_le.mpr h
    _ = (10 : ℝ) ^ (347 : ℕ) := by push_cast; ring

/-- At `rssi = -7000` the exponent is `347.05` and the float64 power
overflows: the computed distance is `+Inf`. -/
theorem rssiToDistanceF_neg7000 : rssiToDistanceF (-7000) = .pinf := by
  show goPowTen (((-59 : ℝ) - ((-7000 : Int) : ℝ)) / (10 * 2)) = .pinf
  have he : ((-59 : ℝ) - ((-7000 : Int) : ℝ)) / (10 * 2) = 6941 / 20 := by
    push_cast; ring
  rw [he, goPowTen, if_pos ?hle]
  case hle =>
    calc (2 : ℝ) ^ (1024 : ℕ) ≤ (10 : ℝ) ^ (347 : ℕ) := two_pow_1024_le_ten_pow_347
      _ = (10 : ℝ) ^ ((347 : ℕ) : ℝ) := (Real.rpow_natCast 10 347).symm
      _ ≤ (10 : ℝ) ^ ((6941 : ℝ) / 20) := by
          apply Real.rpow_le_rpow_of_exponent_le (by norm_num)
          push_cast
          norm_num

/-- A reading with `rssi = -7000` passes the `!IsNaN && d > 0` filter even
though its distance is infinite. -/
theorem usablePointsF_neg7000 :
    usablePointsF [⟨-7000, ⟨0, 0, 0⟩⟩] = [((0 : ℝ), (0 : ℝ), (0 : ℝ), GoFloat.pinf)] := by
  rw [usablePointsF, List.filterMap_cons]
  have hk : keepPointF ⟨-7000, ⟨0, 0, 0⟩⟩ =
      some ((0 : ℝ), (0 : ℝ), (0 : ℝ), GoFloat.pinf) := by
    simp only [keepPointF, rssiToDistanceF_neg7000]
    rw [if_pos ⟨fun h => h, trivial⟩]
  rw [hk]
  rfl

/-- C7 counterexample.  RSSI is an unvalidated JSON integer, so a reading
with `rssi = -7000` is possible; its float64 distance
`math.Pow(10, (−59 − (−7000))/20) = math.Pow(10, 347.05)` overflows to
`+Inf` — a non-finite value — yet the source filter `!math.IsNaN(d) &&
d > 0` keeps it among the usable points, so non-finite distances are NOT
all discarded as the claim states. -/
theorem rssi_filter_claim_counterexample :
    rssiToDistanceF (-7000) = .pinf ∧
    usablePointsF [⟨-7000, ⟨0, 0, 0⟩⟩] = [((0 : ℝ), (0 : ℝ), (0 : ℝ), GoFloat.pinf)] ∧
    ¬ GoFloat.finiteF GoFloat.pinf :=
  ⟨rssiToDistanceF_neg7000, usablePointsF_neg7000, fun h => h⟩

/-- C7 (amended).  The RSSI-to-distance conversion is `math.Pow` of the
log-distance path-loss exponent with the default constants (txPower = −59,
path-loss exponent = 2), so the computed distance is the exact real
`10^((−59 − rssi)/20)` within the float64 range, `+Inf` on overflow, and
`0` on underflow; every kept point passes `!IsNaN(d) && d > 0`; and that
keep-test keeps exactly the distances that are finite and positive — plus
`+Inf`, which is non-finite but kept. -/
theorem rssi_distance_filter :
    (∀ rssi : Int,
      rssiToDistanceF rssi = goPowTen (((-59 : ℝ) - (rssi : ℝ)) / (10 * 2))) ∧
    (∀ e : ℝ, goPowTen e = .finite ((10 : ℝ) ^ e) ∨ goPowTen e = .pinf ∨
      goPowTen e = .finite 0) ∧
    (∀ readings : List StoredBeaconReading, ∀ p ∈ usablePointsF readings,
      ¬ p.2.2.2.isNaN ∧ p.2.2.2.pos) ∧
    (∀ d : GoFloat, (¬ d.isNaN ∧ d.pos) ↔ (d.finiteF ∧ d.pos ∨ d = .pinf)) := by
  refine ⟨fun rssi => rfl, ?_, ?_, ?_⟩
  · intro e
    rw [goPowTen]
    by_cases h1 : (2 : ℝ) ^ (1024 : ℕ) ≤ (10 : ℝ) ^ e
    · rw [if_pos h1]
      exact Or.inr (Or.inl rfl)
    · rw [if_neg h1]
      by_cases h2 : (10 : ℝ) ^ e < (2 : ℝ) ^ (-1075 : ℤ)
      · rw [if_pos h2]
        exact Or.inr (Or.inr rfl)
      · rw [if_neg h2]
        exact Or.inl rfl
  · intro readings p hp
    rw [usablePointsF] at hp
    obtain ⟨r, _, hfr⟩ := List.mem_filterMap.mp hp
    simp only [keepPointF] at hfr
    by_cases hc : ¬ (rssiToDistanceF r.rssi).isNaN ∧ (rssiToDistanceF r.rssi).pos
    · rw [if_pos hc] at hfr
      injection hfr with hfr2
      subst hfr2
      exact hc
    · rw [if_neg hc] at hfr
      cases hfr
  · intro d
    cases d with
    | finite x => simp [GoFloat.isNaN, GoFloat.pos, GoFloat.finiteF]
    | pinf => simp [GoFloat.isNaN, GoFloat.pos, GoFloat.finiteF]
    | ninf => simp [GoFloat.isNaN, GoFloat.pos, GoFloat.finiteF]
    | nan => simp [GoFloat.isNaN, GoFloat.pos, GoFloat.finiteF]

/-- Witness for C7 (amended): the kept point of the overflowing reading
satisfies the keep-test. -/
theorem rssi_distance_filter_witness :
    ¬ GoFloat.isNaN ((0 : ℝ), (0 : ℝ), (0 : ℝ), GoFloat.pinf).2.2.2 ∧
      GoFloat.pos ((0 : ℝ), (0 : ℝ), (0 : ℝ), GoFloat.pinf).2.2.2 :=
  rssi_distance_filter.2.2.1 [⟨-7000, ⟨0, 0, 0⟩⟩]
    ((0 : ℝ), (0 : ℝ), (0 : ℝ), GoFloat.pinf)
    (by rw [usablePointsF_neg7000]; exact List.mem_singleton.mpr rfl)

/-- A two-element swap is never a sublist of its own reversal when the two
elements differ. -/
theorem not_pair_sublist_swap {α : Type} {a b : α} (hne : a ≠ b) :
    ¬ List.Sublist [a, b] [b, a] := by
  intro h
  cases h with
  | cons _ h2 =>
    have hlen := h2.length_le
    simp at hlen
  | cons₂ h2 =>
    exact hne rfl

/-- A room named "A" centered at the origin with radius 1. -/
def roomA : RoomDefinition := ⟨"A".toList, 0, 0, 0, 1⟩

/-- A room named "B" at the same center with the same radius. -/
def roomB : RoomDefinition := ⟨"B".toList, 0, 0, 0, 1⟩

/-- The distance from the origin estimate to either room's center. -/
noncomputable def tieD : ℝ :=
  Real.sqrt ((0 - 0) * (0 - 0) + (0 - 0) * (0 - 0) + (0 - 0) * (0 - 0))

/-- The room match computed for `roomA`. -/
noncomputable def matchA : RoomMatch := ⟨"A".toList, tieD, 1, tieD ≤ 1⟩

/-- The room match computed for `roomB`. -/
noncomputable def matchB : RoomMatch := ⟨"B".toList, tieD, 1, tieD ≤ 1⟩

/-- C8 counterexample.  With two distinct rooms at the same center (a tie),
the reversed match list satisfies the `sort.Slice` contract — it is a
sorted permutation — yet violates tie-break-by-input-order; since Go's
`sort.Slice` guarantees nothing beyond that contract (it is documented as
not stable), the claimed stable ordering does not hold of the code. -/
theorem room_sort_stability_counterexample :
    SortSliceSpec (roomMatchesOf 0 0 0 [roomA, roomB]) [matchB, matchA] ∧
    ¬ TiesInInputOrder (roomMatchesOf 0 0 0 [roomA, roomB]) [matchB, matchA] := by
  have hlist : roomMatchesOf 0 0 0 [roomA, roomB] = [matchA, matchB] := rfl
  have hne : matchA ≠ matchB := fun h => by
    have hn := congrArg RoomMatch.name h
    rw [show matchA.name = "A".toList from rfl,
      show matchB.name = "B".toList from rfl] at hn
    exact absurd hn (by decide)
  constructor
  · refine ⟨?_, ?_⟩
    · rw [hlist]
      exact List.Perm.swap matchA matchB []
    · refine List.pairwise_cons.mpr ⟨?_, List.pairwise_singleton _ _⟩
      intro c hc
      rw [List.mem_singleton] at hc
      subst hc
      exact lt_irrefl tieD
  · intro hstable
    have hsub := hstable matchA matchB
      (by rw [hlist]) rfl
    exact not_pair_sublist_swap hne hsub

/-- C8 (amended).  Every list satisfying the `sort.Slice` contract on the
computed room matches is a permutation of them sorted ascending by
distance; each match flags `withinRadius` exactly when its distance is at
most its radius, and each configured room contributes a match at the
Euclidean distance from the estimate to its center.  The order of tied
rooms is not specified (Go's `sort.Slice` is not guaranteed stable). -/
theorem room_ranking (x y z : ℝ) (rooms : List RoomDefinition)
    (out : List RoomMatch)
    (h : SortSliceSpec (roomMatchesOf x y z rooms) out) :
    out.Perm (roomMatchesOf x y z rooms) ∧
    out.Pairwise (fun a b => a.distance ≤ b.distance) ∧
    (∀ m ∈ out, m.withinRadius ↔ m.distance ≤ m.radius) ∧
    (∀ room ∈ rooms, ∃ m ∈ out, m.name = room.name ∧
      m.distance = Real.sqrt ((x - room.x) ^ 2 + (y - room.y) ^ 2 + (z - room.z) ^ 2) ∧
      m.radius = room.radius) := by
  obtain ⟨hperm, hpair⟩ := h
  refine ⟨hperm, ?_, ?_, ?_⟩
  · exact hpair.imp (fun hab => not_lt.mp hab)
  · intro m hm
    have hmem : m ∈ roomMatchesOf x y z rooms := hperm.subset hm
    rw [roomMatchesOf] at hmem
    obtain ⟨room, _, heq⟩ := List.mem_map.mp hmem
    subst heq
    exact Iff.rfl
  · intro room hroom
    refine ⟨_, hperm.mem_iff.mpr (List.mem_map_of_mem _ hroom), rfl, ?_, rfl⟩
    show Real.sqrt ((x - room.x) * (x - room.x) + (y - room.y) * (y - room.y) +
      (z - room.z) * (z - room.z)) = _
    congr 1
    ring

/-- Witness for C8 (amended): the identity permutation of a single room's
match list satisfies the contract, and the conclusions hold of it. -/
theorem room_ranking_witness :
    (roomMatchesOf 0 0 0 [roomA]).Pairwise (fun a b => a.distance ≤ b.distance) ∧
    (∀ m ∈ roomMatchesOf 0 0 0 [roomA], m.withinRadius ↔ m.distance ≤ m.radius) :=
  ⟨(room_ranking 0 0 0 [roomA] (roomMatchesOf 0 0 0 [roomA])
      ⟨List.Perm.refl _, List.pairwise_singleton _ _⟩).2.1,
    (room_ranking 0 0 0 [roomA] (roomMatchesOf 0 0 0 [roomA])
      ⟨List.Perm.refl _, List.pairwise_singleton _ _⟩).2.2.1⟩

end CatLocator
